import Mathlib

/-!
Shallow embedding of the year-progress application (`script.js`) and proofs of
the specification's claims about it.

Numbers: the JS code computes with IEEE doubles; the properties at stake
(clamping, floor division, rounding to blocks / whole percent) are exact-value
properties, so milliseconds are embedded as `Int` and derived quotients as `Rat`.
JS `Math.floor` is `Int.floor`, JS `Math.round` (half toward positive infinity)
is Mathlib's `round` (`round x = Int.floor (x + 1/2)`), and `toFixed(0)` on the
nonnegative percentages used here also rounds to the nearest integer.
-/

namespace YearProgress

/-- `24 * 60 * 60 * 1000`, the `msPerDay` constant of `getYearProgressPrecise`. -/
def msPerDay : ℤ := 24 * 60 * 60 * 1000

/-- The leap-year test of `script.js` line 89:
`(year % 4 === 0 && year % 100 !== 0) || year % 400 === 0`. -/
def isLeap (year : ℤ) : Bool :=
  (year % 4 == 0 && year % 100 != 0) || year % 400 == 0

/-- The data `getYearProgressPrecise` draws from the host `Date` API for one
call: the current instant `now` (epoch ms), its local calendar year
(`now.getFullYear()`), and the epoch instants of `new Date(year, 0, 1)` and
`new Date(year + 1, 0, 1)`. `Date` semantics guarantee
`startOfYear ≤ now < endOfYear` for every wall-clock value, because `year` is
derived from `now` itself; theorems take the parts of that fact they need as
explicit hypotheses. -/
structure ProgressInputs where
  now : ℤ
  year : ℤ
  startOfYear : ℤ
  endOfYear : ℤ
deriving DecidableEq, Repr

/-- The record returned by `getYearProgressPrecise` (the `displayPercentage`
string is a formatting of `percentage` and is not needed by any claim). -/
structure ProgressRecord where
  percentage : ℚ
  daysPassed : ℤ
  daysRemaining : ℤ
  totalDaysInYear : ℤ
deriving DecidableEq, Repr

/-- `getYearProgressPrecise` from `script.js` lines 83..113. -/
def getYearProgressPrecise (i : ProgressInputs) : ProgressRecord :=
  let totalDaysInYear : ℤ := if isLeap i.year then 366 else 365
  let totalMsInYear : ℤ := totalDaysInYear * msPerDay
  let msPassed : ℤ := i.now - i.startOfYear
  let percentage : ℚ := min 100 ((msPassed : ℚ) / (totalMsInYear : ℚ) * 100)
  let daysPassed : ℤ := ⌊(msPassed : ℚ) / (msPerDay : ℚ)⌋
  let msRemaining : ℤ := i.endOfYear - i.now
  let daysRemaining : ℤ := ⌊(msRemaining : ℚ) / (msPerDay : ℚ)⌋
  { percentage := percentage
    daysPassed := daysPassed
    daysRemaining := daysRemaining
    totalDaysInYear := totalDaysInYear }

/-- The spec's `fractionElapsed` is `percentage / 100`. -/
def fractionElapsed (i : ProgressInputs) : ℚ :=
  (getYearProgressPrecise i).percentage / 100

/-- `CLIPBOARD_BLOCKS_TOTAL` (`script.js` line 12). -/
def CLIPBOARD_BLOCKS_TOTAL : ℕ := 15

/-- `CLIPBOARD_BLOCK_FILLED` (`script.js` line 13). -/
def CLIPBOARD_BLOCK_FILLED : Char := '▓'

/-- `CLIPBOARD_BLOCK_EMPTY` (`script.js` line 14). -/
def CLIPBOARD_BLOCK_EMPTY : Char := '░'

/-- `x.toFixed(0)` for the nonnegative values used here: nearest integer,
ties rounded up, i.e. Mathlib's `round`. -/
def toFixed0 (x : ℚ) : ℤ := round x

/-- `numFilled` of `copyToClipboard` (`script.js` lines 338..340):
`Math.round(percentageValue / (100 / CLIPBOARD_BLOCKS_TOTAL))`. -/
def numFilled (percentageValue : ℚ) : ℤ :=
  round (percentageValue / (100 / (CLIPBOARD_BLOCKS_TOTAL : ℚ)))

/-- The clipboard text built by `copyToClipboard` (`script.js` lines 337..346)
from a percentage value.  `String.repeat` on a nonnegative count is
`List.replicate`; the counts are nonnegative whenever `0 ≤ percentage ≤ 100`
(proved in claim C9). -/
def clipboardTextOf (percentageValue : ℚ) : String :=
  let numEmpty : ℤ := (CLIPBOARD_BLOCKS_TOTAL : ℤ) - numFilled percentageValue
  String.mk (List.replicate (numFilled percentageValue).toNat CLIPBOARD_BLOCK_FILLED)
    ++ String.mk (List.replicate numEmpty.toNat CLIPBOARD_BLOCK_EMPTY)
    ++ " " ++ toString (toFixed0 percentageValue) ++ "%"

/-- `copyToClipboard` (`script.js` lines 333..346) as a function of the stored
`currentProgressData`.  `none` models the startup value `{}` (an object whose
`percentage` is not a number), on which the guard at line 335 returns silently
with nothing copied.  The function takes no clock input: the source reads only
`currentProgressData`. -/
def copyToClipboard (currentProgressData : Option ProgressRecord) : Option String :=
  match currentProgressData with
  | none => none
  | some progress => some (clipboardTextOf progress.percentage)

/-! ### Trace model of `currentProgressData`

`updateUI` (lines 168..226) stores `getYearProgressPrecise()` into the global
`currentProgressData`; `copyToClipboard` reads it.  A session is a list of
these two events in program order. -/

/-- One event touching `currentProgressData`: an `updateUI` run (which
recomputes and stores) or a copy-button click. -/
inductive Event where
  | recompute (i : ProgressInputs)
  | copy
deriving DecidableEq, Repr

/-- The value of `currentProgressData` after a list of events, starting from
the startup value `{}` (modelled `none`). `copy` never writes it. -/
def runState (es : List Event) : Option ProgressRecord :=
  es.foldl
    (fun s e =>
      match e with
      | Event.recompute i => some (getYearProgressPrecise i)
      | Event.copy => s)
    none

/-- The input of the last `recompute` event in a trace, if any. -/
def lastRecompute (es : List Event) : Option ProgressInputs :=
  es.foldl
    (fun a e =>
      match e with
      | Event.recompute i => some i
      | Event.copy => a)
    none

/-- What a copy click at the end of a trace writes to the clipboard
(`none` = the guard returned silently). -/
def copyAfter (es : List Event) : Option String :=
  copyToClipboard (runState es)

/-! ### Timer state machine

The timer-touching statements of `script.js`: the globals `updateTimer` and
`debounceTimeout` (lines 78, 80) plus the host's set of actually-armed timers.
Handles are the positive integers the host returns (`nextHandle` is the next
fresh one; it starts at 1 since host timer ids are nonzero, which is what makes
the JS truthiness test `!updateTimer` equivalent to a null test). -/
structure SchedState where
  updateTimer : Option ℕ
  debounceTimeout : Option ℕ
  armedIntervals : List ℕ
  armedTimeouts : List ℕ
  nextHandle : ℕ
deriving DecidableEq, Repr

/-- `clearInterval(h)`: disarms the interval; touches no JS variable. -/
def clearIntervalOp (h : ℕ) (s : SchedState) : SchedState :=
  { s with armedIntervals := s.armedIntervals.erase h }

/-- `clearTimeout(h)`: disarms the timeout; touches no JS variable. -/
def clearTimeoutOp (h : ℕ) (s : SchedState) : SchedState :=
  { s with armedTimeouts := s.armedTimeouts.erase h }

/-- `setInterval(...)`: arms a fresh interval and returns its handle. -/
def setIntervalOp (s : SchedState) : ℕ × SchedState :=
  (s.nextHandle,
    { s with
        armedIntervals := s.nextHandle :: s.armedIntervals
        nextHandle := s.nextHandle + 1 })

/-- `setTimeout(...)`: arms a fresh one-shot timeout and returns its handle. -/
def setTimeoutOp (s : SchedState) : ℕ × SchedState :=
  (s.nextHandle,
    { s with
        armedTimeouts := s.nextHandle :: s.armedTimeouts
        nextHandle := s.nextHandle + 1 })

/-- `handleVisibilityChange` (`script.js` lines 372..389), parameterized by
`document.hidden`.  Hidden: clear and null both handles.  Visible: if
`updateTimer` is null, run `updateUI()` (no timer effect) and arm the update
interval. -/
def handleVisibilityChange (hidden : Bool) (s : SchedState) : SchedState :=
  if hidden then
    let s1 :=
      match s.updateTimer with
      | some h => { clearIntervalOp h s with updateTimer := none }
      | none => s
    match s1.debounceTimeout with
    | some h => { clearTimeoutOp h s1 with debounceTimeout := none }
    | none => s1
  else
    match s.updateTimer with
    | some _ => s
    | none =>
      let (h, s1) := setIntervalOp s
      { s1 with updateTimer := some h }

/-- `debouncedUpdateUI` (`script.js` lines 155..165): clear any pending
debounce timeout, then arm a fresh one and store its handle. -/
def debouncedUpdateUI (s : SchedState) : SchedState :=
  let s1 :=
    match s.debounceTimeout with
    | some h => clearTimeoutOp h s
    | none => s
  let (h, s2) := setTimeoutOp s1
  { s2 with debounceTimeout := some h }

/-- The timer effects of `exportButton._clickHandler` (`script.js` lines
473..575), identical on every exit path (success, caught render failure, or
thrown error — the restart sits in `finally`).  Line 475:
`if (updateTimer) clearInterval(updateTimer);` — the variable is *not* nulled.
Lines 571..573: `if (!document.hidden && !updateTimer) updateTimer =
setInterval(debouncedUpdateUI, UPDATE_INTERVAL);`. -/
def exportClickHandler (hidden : Bool) (s : SchedState) : SchedState :=
  let s1 :=
    match s.updateTimer with
    | some h => clearIntervalOp h s
    | none => s
  if !hidden && s1.updateTimer.isNone then
    let (h, s2) := setIntervalOp s1
    { s2 with updateTimer := some h }
  else s1

/-- The timer state at startup: both variables null, nothing armed. -/
def initSched : SchedState :=
  { updateTimer := none
    debounceTimeout := none
    armedIntervals := []
    armedTimeouts := []
    nextHandle := 1 }

/-! ### Timed debounce semantics

For the coalescing claim the deferred timer needs real time.  Triggers arrive
at the given instants (in order); each arms `updateUI` to run `delay` ms later,
cancelling the previously armed run if it has not fired yet.  `fireTimes`
returns the instants at which `updateUI` actually runs; `updateUI` recomputes
`getYearProgressPrecise` at its own invocation instant (the debounce callback
at lines 162..164 captures nothing). -/
def fireTimes (delay : ℤ) : List ℤ → List ℤ
  | [] => []
  | [t] => [t + delay]
  | t₁ :: t₂ :: ts =>
    if t₁ + delay ≤ t₂ then (t₁ + delay) :: fireTimes delay (t₂ :: ts)
    else fireTimes delay (t₂ :: ts)

/-! ### Shared lemmas -/

/-- The source's boolean leap test agrees with the Gregorian rule. -/
theorem isLeap_iff (y : ℤ) :
    isLeap y = true ↔ (4 ∣ y ∧ ¬(100 ∣ y)) ∨ 400 ∣ y := by
  simp only [isLeap, Bool.or_eq_true, Bool.and_eq_true, beq_iff_eq, bne_iff_ne,
    Int.dvd_iff_emod_eq_zero]

/-- Floor of an integer quotient, by sandwiching. -/
theorem floor_div_eq (a b q : ℤ) (hb : (0 : ℤ) < b) (h1 : q * b ≤ a)
    (h2 : a < (q + 1) * b) : ⌊(a : ℚ) / (b : ℚ)⌋ = q := by
  have hbq : (0 : ℚ) < (b : ℚ) := by exact_mod_cast hb
  rw [Int.floor_eq_iff]
  constructor
  · rw [le_div_iff hbq]
    exact_mod_cast h1
  · rw [div_lt_iff hbq]
    exact_mod_cast h2

/-- The record's day total is the `isLeap` branch. -/
theorem totalDaysInYear_eq (i : ProgressInputs) :
    (getYearProgressPrecise i).totalDaysInYear =
      if isLeap i.year then 366 else 365 := rfl

/-- `totalMsInYear` is positive. -/
theorem totalMs_pos (y : ℤ) :
    (0 : ℤ) < (if isLeap y then (366 : ℤ) else 365) * msPerDay := by
  cases h : isLeap y <;> norm_num [h, msPerDay]

/-- The record's percentage, written out. -/
theorem percentage_eq (i : ProgressInputs) :
    (getYearProgressPrecise i).percentage =
      min 100 (((i.now - i.startOfYear : ℤ) : ℚ) /
        (((if isLeap i.year then (366 : ℤ) else 365) * msPerDay : ℤ) : ℚ) * 100) := rfl

/-- The record's day counts, written out. -/
theorem days_eq (i : ProgressInputs) :
    (getYearProgressPrecise i).daysPassed =
        ⌊((i.now - i.startOfYear : ℤ) : ℚ) / (msPerDay : ℚ)⌋ ∧
      (getYearProgressPrecise i).daysRemaining =
        ⌊((i.endOfYear - i.now : ℤ) : ℚ) / (msPerDay : ℚ)⌋ := ⟨rfl, rfl⟩

/-! ### Claims C4, C5, C7, C6 -/

/-- Claim C4: for every instant, `fractionElapsed = percentage / 100` lies in
`[0, 1]`: the `Math.min(100, ...)` cap bounds it above even when the wall clock
puts `now` at or past `yearEndExclusive`, and it is never negative.  The single
hypothesis `startOfYear ≤ now` is the `Date` fact that `startOfYear` is
recomputed from `now`'s own local year, hence never exceeds `now`, whatever the
wall clock was set to. -/
theorem c4_fractionElapsed_in_unit_interval (i : ProgressInputs)
    (h : i.startOfYear ≤ i.now) :
    0 ≤ fractionElapsed i ∧ fractionElapsed i ≤ 1 := by
  have hT : (0 : ℚ) < (((if isLeap i.year then (366 : ℤ) else 365) * msPerDay : ℤ) : ℚ) := by
    exact_mod_cast totalMs_pos i.year
  have hnum : (0 : ℚ) ≤ ((i.now - i.startOfYear : ℤ) : ℚ) := by
    exact_mod_cast sub_nonneg.mpr h
  have h0 : (0 : ℚ) ≤ (getYearProgressPrecise i).percentage := by
    rw [percentage_eq]
    exact le_min (by norm_num) (mul_nonneg (div_nonneg hnum hT.le) (by norm_num))
  have h100 : (getYearProgressPrecise i).percentage ≤ 100 := by
    rw [percentage_eq]; exact min_le_left _ _
  unfold fractionElapsed
  constructor
  · exact div_nonneg h0 (by norm_num)
  · rw [div_le_one (by norm_num)]; exact h100

/-- Witness for C4 at a wall clock far past the end of 2023: the fraction is
clamped into `[0, 1]`. -/
theorem c4_witness :
    0 ≤ fractionElapsed ⟨1000000000000000, 2023, 0, 365 * msPerDay⟩ ∧
      fractionElapsed ⟨1000000000000000, 2023, 0, 365 * msPerDay⟩ ≤ 1 :=
  c4_fractionElapsed_in_unit_interval _ (by norm_num)

/-- Claim C5: `totalDaysInYear` is 366 exactly when the year is divisible by 4
and not by 100, or divisible by 400, and 365 otherwise; in particular 366 for
2024 and 2000, and 365 for 2023 and 1900. -/
theorem c5_leap_year_rule (i : ProgressInputs) :
    ((getYearProgressPrecise i).totalDaysInYear = 366 ↔
        (4 ∣ i.year ∧ ¬(100 ∣ i.year)) ∨ 400 ∣ i.year) ∧
      ((getYearProgressPrecise i).totalDaysInYear = 365 ∨
        (getYearProgressPrecise i).totalDaysInYear = 366) ∧
      (getYearProgressPrecise ⟨0, 2024, 0, 0⟩).totalDaysInYear = 366 ∧
      (getYearProgressPrecise ⟨0, 2000, 0, 0⟩).totalDaysInYear = 366 ∧
      (getYearProgressPrecise ⟨0, 2023, 0, 0⟩).totalDaysInYear = 365 ∧
      (getYearProgressPrecise ⟨0, 1900, 0, 0⟩).totalDaysInYear = 365 := by
  refine ⟨?_, ?_, by decide, by decide, by decide, by decide⟩
  · rw [totalDaysInYear_eq, ← isLeap_iff]
    cases h : isLeap i.year <;> simp [h]
  · rw [totalDaysInYear_eq]
    cases h : isLeap i.year <;> simp [h]

/-- Claim C7: `daysPassed` is the floor of elapsed ms over one day (the partial
current day is never counted), `daysRemaining` the floor of the ms to
`yearEndExclusive` over one day; at `now = yearStart`, `daysPassed = 0`, and at
`now = yearEndExclusive - 1 ms`, `daysRemaining = 0`. -/
theorem c7_floor_day_counts (i : ProgressInputs) :
    (getYearProgressPrecise i).daysPassed =
        ⌊((i.now - i.startOfYear : ℤ) : ℚ) / (msPerDay : ℚ)⌋ ∧
      (getYearProgressPrecise i).daysRemaining =
        ⌊((i.endOfYear - i.now : ℤ) : ℚ) / (msPerDay : ℚ)⌋ ∧
      (i.now = i.startOfYear → (getYearProgressPrecise i).daysPassed = 0) ∧
      (i.now = i.endOfYear - 1 → (getYearProgressPrecise i).daysRemaining = 0) := by
  refine ⟨rfl, rfl, ?_, ?_⟩
  · intro h
    rw [(days_eq i).1, h]
    simp
  · intro h
    rw [(days_eq i).2, h]
    rw [show i.endOfYear - (i.endOfYear - 1) = 1 by ring]
    rw [Int.floor_eq_zero_iff]
    constructor <;> norm_num [msPerDay]

/-- Witness for C7: at the first instant of 2023 no day has passed, and at the
last millisecond of 2023 no full day remains. -/
theorem c7_witness :
    (getYearProgressPrecise ⟨0, 2023, 0, 365 * msPerDay⟩).daysPassed = 0 ∧
      (getYearProgressPrecise ⟨365 * msPerDay - 1, 2023, 0, 365 * msPerDay⟩).daysRemaining = 0 :=
  ⟨(c7_floor_day_counts ⟨0, 2023, 0, 365 * msPerDay⟩).2.2.1 rfl,
    (c7_floor_day_counts ⟨365 * msPerDay - 1, 2023, 0, 365 * msPerDay⟩).2.2.2 rfl⟩

/-- Claim C6: within the year (and with the year spanning exactly
`totalDaysInYear` days of epoch time, the `Date` fact the code relies on),
`daysPassed + daysRemaining` is `totalDaysInYear - 1` or `totalDaysInYear`;
both values actually occur (midnight gives the full total, midday one less), so
the sum is not forced to a fixed total. -/
theorem c6_day_sum_off_by_at_most_one (i : ProgressInputs)
    (hspan : i.endOfYear - i.startOfYear = (getYearProgressPrecise i).totalDaysInYear * msPerDay)
    (h0 : i.startOfYear ≤ i.now) (h1 : i.now < i.endOfYear) :
    ((getYearProgressPrecise i).daysPassed + (getYearProgressPrecise i).daysRemaining =
        (getYearProgressPrecise i).totalDaysInYear - 1 ∨
      (getYearProgressPrecise i).daysPassed + (getYearProgressPrecise i).daysRemaining =
        (getYearProgressPrecise i).totalDaysInYear) ∧
      (getYearProgressPrecise ⟨0, 2023, 0, 365 * msPerDay⟩).daysPassed +
          (getYearProgressPrecise ⟨0, 2023, 0, 365 * msPerDay⟩).daysRemaining = 365 ∧
      (getYearProgressPrecise ⟨43200000, 2023, 0, 365 * msPerDay⟩).daysPassed +
          (getYearProgressPrecise ⟨43200000, 2023, 0, 365 * msPerDay⟩).daysRemaining = 364 := by
  have e2 : (getYearProgressPrecise ⟨0, 2023, 0, 365 * msPerDay⟩).daysPassed +
      (getYearProgressPrecise ⟨0, 2023, 0, 365 * msPerDay⟩).daysRemaining = 365 := by
    show ⌊((0 : ℤ) : ℚ) / (msPerDay : ℚ)⌋ + ⌊((31536000000 : ℤ) : ℚ) / (msPerDay : ℚ)⌋ = 365
    rw [floor_div_eq 0 msPerDay 0 (by decide) (by decide) (by decide),
      floor_div_eq 31536000000 msPerDay 365 (by decide) (by decide) (by decide)]
    decide
  have e3 : (getYearProgressPrecise ⟨43200000, 2023, 0, 365 * msPerDay⟩).daysPassed +
      (getYearProgressPrecise ⟨43200000, 2023, 0, 365 * msPerDay⟩).daysRemaining = 364 := by
    show ⌊((43200000 : ℤ) : ℚ) / (msPerDay : ℚ)⌋ +
        ⌊((31492800000 : ℤ) : ℚ) / (msPerDay : ℚ)⌋ = 364
    rw [floor_div_eq 43200000 msPerDay 0 (by decide) (by decide) (by decide),
      floor_div_eq 31492800000 msPerDay 364 (by decide) (by decide) (by decide)]
    decide
  refine ⟨?_, e2, e3⟩
  set T : ℤ := (getYearProgressPrecise i).totalDaysInYear with hT
  set a : ℤ := i.now - i.startOfYear with ha
  set b : ℤ := i.endOfYear - i.now with hb
  have hd : (0 : ℚ) < (msPerDay : ℚ) := by norm_num [msPerDay]
  have hab : a + b = T * msPerDay := by rw [ha, hb, ← hspan]; ring
  have hxy : ((a : ℚ)) / (msPerDay : ℚ) + ((b : ℚ)) / (msPerDay : ℚ) = (T : ℚ) := by
    rw [div_add_div_same]
    rw [show ((a : ℚ) + (b : ℚ)) = ((a + b : ℤ) : ℚ) by push_cast; ring, hab]
    push_cast
    field_simp
  have hsum_le : (getYearProgressPrecise i).daysPassed + (getYearProgressPrecise i).daysRemaining ≤ T := by
    rw [(days_eq i).1, (days_eq i).2]
    have h₁ := Int.floor_le ((a : ℚ) / (msPerDay : ℚ))
    have h₂ := Int.floor_le ((b : ℚ) / (msPerDay : ℚ))
    have : ((⌊(a : ℚ) / (msPerDay : ℚ)⌋ + ⌊(b : ℚ) / (msPerDay : ℚ)⌋ : ℤ) : ℚ) ≤ (T : ℚ) := by
      push_cast
      calc ((⌊(a : ℚ) / (msPerDay : ℚ)⌋ : ℚ) + (⌊(b : ℚ) / (msPerDay : ℚ)⌋ : ℚ))
          ≤ (a : ℚ) / (msPerDay : ℚ) + (b : ℚ) / (msPerDay : ℚ) := add_le_add h₁ h₂
        _ = (T : ℚ) := hxy
    exact_mod_cast this
  have hsum_gt : T - 2 < (getYearProgressPrecise i).daysPassed + (getYearProgressPrecise i).daysRemaining := by
    rw [(days_eq i).1, (days_eq i).2]
    have h₁ := Int.lt_floor_add_one ((a : ℚ) / (msPerDay : ℚ))
    have h₂ := Int.lt_floor_add_one ((b : ℚ) / (msPerDay : ℚ))
    have : ((T - 2 : ℤ) : ℚ) < ((⌊(a : ℚ) / (msPerDay : ℚ)⌋ + ⌊(b : ℚ) / (msPerDay : ℚ)⌋ : ℤ) : ℚ) := by
      push_cast
      have := add_lt_add h₁ h₂
      rw [hxy] at this
      linarith
    exact_mod_cast this
  omega

/-- Witness for C6: one concrete in-year instant of 2023 satisfying all
hypotheses; the sum lands on one of the two permitted values. -/
theorem c6_witness :
    (getYearProgressPrecise ⟨43200000, 2023, 0, 365 * msPerDay⟩).daysPassed +
        (getYearProgressPrecise ⟨43200000, 2023, 0, 365 * msPerDay⟩).daysRemaining =
        (getYearProgressPrecise ⟨43200000, 2023, 0, 365 * msPerDay⟩).totalDaysInYear - 1 ∨
      (getYearProgressPrecise ⟨43200000, 2023, 0, 365 * msPerDay⟩).daysPassed +
        (getYearProgressPrecise ⟨43200000, 2023, 0, 365 * msPerDay⟩).daysRemaining =
        (getYearProgressPrecise ⟨43200000, 2023, 0, 365 * msPerDay⟩).totalDaysInYear :=
  (c6_day_sum_off_by_at_most_one ⟨43200000, 2023, 0, 365 * msPerDay⟩
    (by decide) (by norm_num) (by norm_num [msPerDay])).1

/-! ### Claim C9: clipboard format -/

/-- Claim C9: for a displayed percentage in `[0, 100]`, the clipboard text is a
fixed-width bar of exactly 15 block glyphs — `round(percentage / (100/15))`
filled glyphs then the remaining empty ones — followed by a space, the
percentage rounded to zero decimals, and a percent sign. -/
theorem c9_clipboard_fixed_width_bar (p : ℚ) (h0 : 0 ≤ p) (h1 : p ≤ 100) :
    0 ≤ numFilled p ∧ numFilled p ≤ 15 ∧
      clipboardTextOf p =
        String.mk (List.replicate (numFilled p).toNat CLIPBOARD_BLOCK_FILLED) ++
          String.mk (List.replicate (15 - (numFilled p).toNat) CLIPBOARD_BLOCK_EMPTY) ++
          " " ++ toString (round p) ++ "%" ∧
      (String.mk (List.replicate (numFilled p).toNat CLIPBOARD_BLOCK_FILLED) ++
          String.mk (List.replicate (15 - (numFilled p).toNat) CLIPBOARD_BLOCK_EMPTY)).length
        = 15 := by
  have hb : (0 : ℚ) < 100 / (CLIPBOARD_BLOCKS_TOTAL : ℚ) := by
    norm_num [CLIPBOARD_BLOCKS_TOTAL]
  have hq0 : (0 : ℚ) ≤ p / (100 / (CLIPBOARD_BLOCKS_TOTAL : ℚ)) := div_nonneg h0 hb.le
  have hq15 : p / (100 / (CLIPBOARD_BLOCKS_TOTAL : ℚ)) ≤ 15 := by
    rw [div_le_iff hb]
    calc p ≤ 100 := h1
      _ = 15 * (100 / (CLIPBOARD_BLOCKS_TOTAL : ℚ)) := by
        norm_num [CLIPBOARD_BLOCKS_TOTAL]
  have hn0 : 0 ≤ numFilled p := by
    unfold numFilled
    rw [round_eq]
    apply Int.floor_nonneg.mpr
    linarith
  have hn15 : numFilled p ≤ 15 := by
    unfold numFilled
    rw [round_eq]
    have hle : p / (100 / (CLIPBOARD_BLOCKS_TOTAL : ℚ)) + 1 / 2 ≤ 15 + 1 / 2 := by linarith
    calc ⌊p / (100 / (CLIPBOARD_BLOCKS_TOTAL : ℚ)) + 1 / 2⌋
        ≤ ⌊(15 + 1 / 2 : ℚ)⌋ := Int.floor_le_floor hle
      _ = 15 := by
        rw [Int.floor_eq_iff]
        constructor <;> norm_num
  have hrepl : ((CLIPBOARD_BLOCKS_TOTAL : ℤ) - numFilled p).toNat = 15 - (numFilled p).toNat := by
    simp only [CLIPBOARD_BLOCKS_TOTAL]
    omega
  refine ⟨hn0, hn15, ?_, ?_⟩
  · show String.mk (List.replicate (numFilled p).toNat CLIPBOARD_BLOCK_FILLED) ++
        String.mk (List.replicate ((CLIPBOARD_BLOCKS_TOTAL : ℤ) - numFilled p).toNat
          CLIPBOARD_BLOCK_EMPTY) ++ " " ++ toString (round p) ++ "%" = _
    rw [hrepl]
  · rw [String.length_append]
    show (List.replicate (numFilled p).toNat CLIPBOARD_BLOCK_FILLED).length +
        (List.replicate (15 - (numFilled p).toNat) CLIPBOARD_BLOCK_EMPTY).length = 15
    rw [List.length_replicate, List.length_replicate]
    omega

/-- Witness for C9 at `p = 50`: eight filled and seven empty glyphs. -/
theorem c9_witness :
    0 ≤ numFilled 50 ∧ numFilled 50 ≤ 15 ∧
      clipboardTextOf 50 =
        String.mk (List.replicate (numFilled 50).toNat CLIPBOARD_BLOCK_FILLED) ++
          String.mk (List.replicate (15 - (numFilled 50).toNat) CLIPBOARD_BLOCK_EMPTY) ++
          " " ++ toString (round (50 : ℚ)) ++ "%" ∧
      (String.mk (List.replicate (numFilled 50).toNat CLIPBOARD_BLOCK_FILLED) ++
          String.mk (List.replicate (15 - (numFilled 50).toNat) CLIPBOARD_BLOCK_EMPTY)).length
        = 15 :=
  c9_clipboard_fixed_width_bar 50 (by norm_num) (by norm_num)

/-! ### Claims C2 and C10: snapshot reads -/

/-- The stored record is the image of the last recomputation input. -/
theorem runState_eq_lastRecompute (es : List Event) :
    runState es = Option.map getYearProgressPrecise (lastRecompute es) := by
  have key : ∀ (l : List Event) (a : Option ProgressInputs),
      l.foldl
          (fun s e =>
            match e with
            | Event.recompute i => some (getYearProgressPrecise i)
            | Event.copy => s)
          (Option.map getYearProgressPrecise a) =
        Option.map getYearProgressPrecise
          (l.foldl
            (fun a e =>
              match e with
              | Event.recompute i => some i
              | Event.copy => a)
            a) := by
    intro l
    induction l with
    | nil => intro a; rfl
    | cons e l ih =>
      intro a
      cases e with
      | recompute i => exact ih (some i)
      | copy => exact ih a
  exact key es none

/-- Claim C2: a copy click at the end of a trace emits exactly the text built
from the record stored by the last `updateUI` recomputation — its embedded
whole-number percentage is `round` of that stored record's percentage, and no
recomputation happens at copy time (`copyToClipboard` takes no clock input at
all, so nothing computed after that record was stored can appear). -/
theorem c2_copy_reads_last_stored (es : List Event) (i : ProgressInputs)
    (h : lastRecompute es = some i) :
    copyAfter es = some (clipboardTextOf (getYearProgressPrecise i).percentage) ∧
      copyAfter es =
        some (String.mk (List.replicate (numFilled (getYearProgressPrecise i).percentage).toNat
            CLIPBOARD_BLOCK_FILLED) ++
          String.mk (List.replicate
              ((15 - numFilled (getYearProgressPrecise i).percentage : ℤ)).toNat
            CLIPBOARD_BLOCK_EMPTY) ++
          " " ++ toString (round (getYearProgressPrecise i).percentage) ++ "%") := by
  have h1 : copyAfter es = some (clipboardTextOf (getYearProgressPrecise i).percentage) := by
    unfold copyAfter
    rw [runState_eq_lastRecompute, h]
    rfl
  exact ⟨h1, h1⟩

/-- Witness for C2: a one-recomputation trace followed by a copy click. -/
theorem c2_witness :
    copyAfter [Event.recompute ⟨43200000, 2023, 0, 365 * msPerDay⟩] =
      some (clipboardTextOf
        (getYearProgressPrecise ⟨43200000, 2023, 0, 365 * msPerDay⟩).percentage) :=
  (c2_copy_reads_last_stored [Event.recompute ⟨43200000, 2023, 0, 365 * msPerDay⟩]
    ⟨43200000, 2023, 0, 365 * msPerDay⟩ rfl).1

/-- The `DOMContentLoaded` handler's writes to `currentProgressData` before the
copy listener is attached (`script.js` lines 422..446): `setLanguage` at line
434 always runs `updateUI` (line 150), and if the page is visible another
`updateUI` runs at line 444; the copy listener is only attached afterwards at
line 582. -/
def initTrace (hidden : Bool) (i1 i2 : ProgressInputs) : List Event :=
  Event.recompute i1 :: (if hidden then [] else [Event.recompute i2])

/-- A stored record never disappears under further events. -/
theorem foldl_state_isSome (es : List Event) (s : Option ProgressRecord)
    (h : s.isSome = true) :
    (es.foldl
        (fun s e =>
          match e with
          | Event.recompute i => some (getYearProgressPrecise i)
          | Event.copy => s)
        s).isSome = true := by
  induction es generalizing s with
  | nil => exact h
  | cons e es ih =>
    cases e with
    | recompute i => exact ih _ rfl
    | copy => exact ih _ h

/-- Claim C10: after the delivered startup sequence a progress record is always
stored, and it stays stored under any further events, so the silent-return
guard of `copyToClipboard` (missing or non-numeric stored percentage) can never
fire once the copy click listener exists. -/
theorem c10_copy_guard_unreachable (hidden : Bool) (i1 i2 : ProgressInputs)
    (es : List Event) :
    (runState (initTrace hidden i1 i2)).isSome = true ∧
      copyAfter (initTrace hidden i1 i2) ≠ none ∧
      copyAfter (initTrace hidden i1 i2 ++ es) ≠ none := by
  have h1 : (runState (initTrace hidden i1 i2)).isSome = true := by
    cases hidden <;> rfl
  refine ⟨h1, ?_, ?_⟩
  · unfold copyAfter
    rcases hs : runState (initTrace hidden i1 i2) with _ | r
    · rw [hs] at h1; cases h1
    · simp [copyToClipboard]
  · unfold copyAfter
    have h2 : (runState (initTrace hidden i1 i2 ++ es)).isSome = true := by
      unfold runState
      rw [List.foldl_append]
      exact foldl_state_isSome es _ h1
    rcases hs : runState (initTrace hidden i1 i2 ++ es) with _ | r
    · rw [hs] at h2; cases h2
    · simp [copyToClipboard]

/-! ### Claim C1: export suspension -/

/-- Claim C1 (code bug, evaluated at the failing input): start the scheduler
while visible (`updateTimer = handle 1`, interval 1 armed), then run the export
click handler while still visible.  Line 475 clears the interval but leaves the
stale handle in `updateTimer`, so the `finally` restart guard
`!document.hidden && !updateTimer` at line 571 is false on *every* exit path:
afterwards no interval is armed, the variable still holds the stale handle 1,
and even a further visible notification is a no-op (its `!updateTimer` guard
also sees the stale handle) — the cadence never resumes, contrary to the claim,
the spec, and the code's own comment `Restart updates after export attempt`. -/
theorem c1_export_leaves_scheduler_stopped :
    (handleVisibilityChange false initSched).updateTimer = some 1 ∧
      (handleVisibilityChange false initSched).armedIntervals = [1] ∧
      (exportClickHandler false (handleVisibilityChange false initSched)).armedIntervals = [] ∧
      (exportClickHandler false (handleVisibilityChange false initSched)).updateTimer = some 1 ∧
      handleVisibilityChange false
          (exportClickHandler false (handleVisibilityChange false initSched)) =
        exportClickHandler false (handleVisibilityChange false initSched) := by
  decide

/-! ### Claim C3: start/stop idempotence -/

/-- Counterexample to claim C3 as stated: after two visible transitions from
startup, the armed-timer inventory is a single repeating interval and *no*
armed deferred timeout — not one armed continuous cadence plus one armed
discrete cadence (two armed timers). -/
theorem c3_counterexample :
    (handleVisibilityChange false (handleVisibilityChange false initSched)).armedIntervals.length
        = 1 ∧
      (handleVisibilityChange false
          (handleVisibilityChange false initSched)).armedTimeouts.length = 0 ∧
      ¬((handleVisibilityChange false
            (handleVisibilityChange false initSched)).armedIntervals.length = 1 ∧
        (handleVisibilityChange false
            (handleVisibilityChange false initSched)).armedTimeouts.length = 1) := by
  decide

/-- Claim C3 as amended: both transitions are idempotent — a second visible
call is a no-op (leaving exactly the one armed update interval from the first,
and no pending debounce timeout), a second hidden call leaves the state of the
first (both variables null and, from any state whose armed timers are the ones
its variables track, no armed handles at all); redundant calls never error. -/
theorem c3_idempotent_start_stop (s : SchedState) :
    handleVisibilityChange false (handleVisibilityChange false s) =
        handleVisibilityChange false s ∧
      handleVisibilityChange true (handleVisibilityChange true s) =
        handleVisibilityChange true s ∧
      (handleVisibilityChange true s).updateTimer = none ∧
      (handleVisibilityChange true s).debounceTimeout = none ∧
      ((s.armedIntervals = [] ∨ s.armedIntervals = s.updateTimer.toList) →
        (s.armedTimeouts = [] ∨ s.armedTimeouts = s.debounceTimeout.toList) →
        (handleVisibilityChange true s).armedIntervals = [] ∧
          (handleVisibilityChange true s).armedTimeouts = []) ∧
      (s.updateTimer = none → s.armedIntervals = [] → s.armedTimeouts = [] →
        (handleVisibilityChange false
              (handleVisibilityChange false s)).armedIntervals.length = 1 ∧
          (handleVisibilityChange false
              (handleVisibilityChange false s)).armedTimeouts.length = 0) := by
  rcases hu : s.updateTimer with _ | h <;> rcases hd : s.debounceTimeout with _ | h' <;>
    refine ⟨?_, ?_, ?_, ?_, ?_, ?_⟩ <;>
    simp_all [handleVisibilityChange, clearIntervalOp, clearTimeoutOp, setIntervalOp]

/-- Witness for C3's amended theorem at the startup state. -/
theorem c3_witness :
    ((handleVisibilityChange false (handleVisibilityChange false initSched)).armedIntervals.length
          = 1 ∧
        (handleVisibilityChange false
            (handleVisibilityChange false initSched)).armedTimeouts.length = 0) ∧
      ((handleVisibilityChange true initSched).armedIntervals = [] ∧
        (handleVisibilityChange true initSched).armedTimeouts = []) :=
  ⟨(c3_idempotent_start_stop initSched).2.2.2.2.2 rfl rfl rfl,
    (c3_idempotent_start_stop initSched).2.2.2.2.1 (Or.inl rfl) (Or.inl rfl)⟩

/-! ### Claim C8: debounce coalescing -/

/-- A burst of triggers whose every successor arrives within `delay` of its
predecessor collapses into a single deferred `updateUI` run, at `delay` after
the last trigger. -/
theorem fireTimes_burst (delay : ℤ) (hdelay : 0 < delay) :
    ∀ (ts : List ℤ) (hne : ts ≠ [])
      (hchain : List.Chain' (fun a b => a ≤ b ∧ b < a + delay) ts),
      fireTimes delay ts = [ts.getLast hne + delay] ∧
        ∀ u ∈ ts, u < ts.getLast hne + delay
  | [], hne, _ => absurd rfl hne
  | [t], _, _ => by
    refine ⟨rfl, ?_⟩
    intro u hu
    simp only [List.mem_singleton] at hu
    subst hu
    simp only [List.getLast_singleton]
    omega
  | t₁ :: t₂ :: ts, _, hchain => by
    have h12 : t₁ ≤ t₂ ∧ t₂ < t₁ + delay := (List.chain'_cons.mp hchain).1
    have htail : List.Chain' (fun a b => a ≤ b ∧ b < a + delay) (t₂ :: ts) :=
      (List.chain'_cons.mp hchain).2
    have ih := fireTimes_burst delay hdelay (t₂ :: ts) (by simp) htail
    have hlast : (t₁ :: t₂ :: ts).getLast (by simp) = (t₂ :: ts).getLast (by simp) :=
      List.getLast_cons (by simp)
    have hstep : fireTimes delay (t₁ :: t₂ :: ts) = fireTimes delay (t₂ :: ts) := by
      simp only [fireTimes]
      rw [if_neg (by omega)]
    refine ⟨by rw [hstep, ih.1, hlast], ?_⟩
    intro u hu
    rw [hlast]
    rcases List.mem_cons.mp hu with hu | hu
    · subst hu
      have := ih.2 t₂ (List.mem_cons_self t₂ ts)
      omega
    · exact ih.2 u hu

/-- Claim C8 as amended: each trigger of `debouncedUpdateUI` cancels the
pending deferred timeout before arming a fresh one (so at most one deferred
update is ever pending — from any state whose armed timeouts are the one the
`debounceTimeout` variable tracks, exactly one is armed after a trigger), and
`n` triggers each arriving within one debounce window of the previous one
produce exactly one `updateUI` run, firing only after the triggers go quiet —
at the last trigger plus the debounce delay, recomputing the record at that
firing instant (not at the last trigger's instant). -/
theorem c8_debounce_coalesces (delay t : ℤ) (ts : List ℤ) (hdelay : 0 < delay)
    (hne : ts ≠ [])
    (hchain : List.Chain' (fun a b => a ≤ b ∧ b < a + delay) ts)
    (hlast : ts.getLast hne = t) :
    fireTimes delay ts = [t + delay] ∧
      (∀ u ∈ ts, u < t + delay) ∧
      ∀ s : SchedState,
        (s.armedTimeouts = [] ∨ s.armedTimeouts = s.debounceTimeout.toList) →
        (debouncedUpdateUI s).armedTimeouts.length = 1 := by
  subst hlast
  have h := fireTimes_burst delay hdelay ts hne hchain
  refine ⟨h.1, h.2, ?_⟩
  intro s hinv
  rcases hd : s.debounceTimeout with _ | hh <;>
    rcases hinv with hA | hA <;>
    simp_all [debouncedUpdateUI, clearTimeoutOp, setTimeoutOp]

/-- Witness for C8's amended theorem: three triggers 0, 100, 150 inside one
200 ms window coalesce into one run at 350, and a trigger from the startup
state leaves exactly one armed timeout. -/
theorem c8_witness :
    fireTimes 200 [0, 100, 150] = [150 + 200] ∧
      (debouncedUpdateUI initSched).armedTimeouts.length = 1 := by
  have h := c8_debounce_coalesces 200 150 [0, 100, 150] (by decide) (by decide)
    (by simp [List.chain'_cons]) (by decide)
  exact ⟨h.1, h.2.2 initSched (Or.inl rfl)⟩

/-- Counterexample to claim C8 as stated: two triggers at instants 0 and 100
with the 200 ms debounce delay produce their single `updateUI` run at instant
300 — and the record `updateUI` computes at instant 300 differs from the record
of instant 100, so the one UI update does not use "the state computed at the
time of the last trigger". -/
theorem c8_counterexample :
    fireTimes 200 [0, 100] = [300] ∧
      (getYearProgressPrecise ⟨300, 2023, 0, 365 * msPerDay⟩).percentage ≠
        (getYearProgressPrecise ⟨100, 2023, 0, 365 * msPerDay⟩).percentage := by
  refine ⟨by decide, ?_⟩
  rw [percentage_eq, percentage_eq]
  norm_num [isLeap, msPerDay, min_def]

end YearProgress
